import Mathlib

/-!
Verification of the pipeline-orchestration and port-configuration core of
SpiralsMain.py, shallowly embedded in Lean 4.

Paths are modelled as strings.  The filesystem and the excluded
collaborators (pathlib resolution, the capacitance-matrix parser, the
plot-generation routine, file writes) are modelled as explicit function
parameters, so every embedded operation is a pure function of its inputs.
-/

deriving instance DecidableEq for Except

namespace Spirals

/-- Whitespace in the sense of Python str.strip and str.split with no
arguments, restricted to the ASCII whitespace characters. -/
def isPySpace (c : Char) : Bool :=
  c = ' ' || c = Char.ofNat 9 || c = Char.ofNat 10 || c = Char.ofNat 13 ||
  c = Char.ofNat 11 || c = Char.ofNat 12

/-- The double-quote character. -/
def dquoteChar : Char := Char.ofNat 34

/-- The single-quote character. -/
def squoteChar : Char := Char.ofNat 39

/-- Python str.strip(chars) on a character list: removes every leading and
every trailing character satisfying the predicate. -/
def stripCharsList (p : Char → Bool) (s : List Char) : List Char :=
  ((s.dropWhile p).reverse.dropWhile p).reverse

/-- Python str.strip(chars) on a string. -/
def pyStrip (p : Char → Bool) (s : String) : String :=
  String.mk (stripCharsList p s.toList)

/-- Embeds the per-line cleaning of read_address_entries:
line.strip().strip(dquote).strip(squote).  Note that each strip removes ALL
leading and trailing occurrences of its characters, not one layer. -/
def cleanLine (line : String) : String :=
  pyStrip (fun c => c = squoteChar) (pyStrip (fun c => c = dquoteChar) (pyStrip isPySpace line))

/-- Environment of path operations supplied by the excluded pathlib
collaborator: absoluteness test, join of a parent directory with a relative
path, and canonicalizing resolution. -/
structure PathEnv where
  is_absolute : String → Bool
  joinp : String → String → String
  resolve : String → String

/-- Embeds read_address_entries (SpiralsMain.py lines 34 to 45), applied to
the list of lines of the manifest file: each line is cleaned, blank results
are skipped, relative entries are joined to the parent directory of the
manifest, and every entry is resolved. -/
def read_address_entries (env : PathEnv) (parent : String) : List String → List String
  | [] => []
  | line :: rest =>
    let stripped := cleanLine line
    if stripped = "" then read_address_entries env parent rest
    else
      env.resolve (if env.is_absolute stripped then stripped else env.joinp parent stripped)
        :: read_address_entries env parent rest

/-- Modelled from the spec: stripping of a SINGLE layer of surrounding
single- or double-quote characters, the behaviour the spec ascribes to the
manifest parser. -/
def stripOneQuoteLayer (s : String) : String :=
  let l := s.toList
  match l.head?, l.getLast? with
  | some a, some b =>
    if 2 ≤ l.length ∧ a = b ∧ (a = dquoteChar ∨ a = squoteChar)
    then String.mk (l.drop 1).dropLast else s
  | _, _ => s

/-- Modelled from the spec: the per-line cleaning the spec describes, a
whitespace strip followed by the removal of one surrounding quote layer. -/
def cleanLineSpec (line : String) : String :=
  stripOneQuoteLayer (pyStrip isPySpace line)

/-- Modelled from the spec: the manifest parser as the spec words it, with
single-layer quote stripping in place of the repeated strip calls of the
source. -/
def read_address_entries_spec (env : PathEnv) (parent : String) : List String → List String
  | [] => []
  | line :: rest =>
    let stripped := cleanLineSpec line
    if stripped = "" then read_address_entries_spec env parent rest
    else
      env.resolve (if env.is_absolute stripped then stripped else env.joinp parent stripped)
        :: read_address_entries_spec env parent rest

/-- Embeds the missing-folder computation of MainApp._verify_address
(SpiralsMain.py line 350): the entries that do not exist on disk, in order. -/
def verify_address_missing (exists_on_disk : String → Bool) (entries : List String) : List String :=
  entries.filter (fun p => !exists_on_disk p)

/-- Fixed artifact path of the capacitance matrix of a variant, as hardcoded
in _count_conductors and _load_spiral_paths. -/
def cap_artifact_path (variant : String) : String :=
  variant ++ "/FastSolver/CapacitanceMatrix.txt"

/-- Capacitance matrix as far as the core inspects it: a square matrix of
which only the row count (shape[0]) is consumed. -/
structure CapMatrix where
  rows : Nat
deriving DecidableEq, Repr

/-- Embeds PortsPopup._count_conductors (SpiralsMain.py lines 171 to 177).
The excluded collaborator PG.load_capacitance_matrix is modelled from the
spec as a parameter from artifact path to parse result; any failure of the
load or of the shape access yields 0. -/
def count_conductors (load : String → Except Unit CapMatrix) (path : String) : Nat :=
  match load (cap_artifact_path path) with
  | .ok m => m.rows
  | .error _ => 0

/-- Embeds PortsPopup._load_spiral_paths (SpiralsMain.py lines 85 to 94):
when reading the address file raised, the list is empty; otherwise the
entries whose capacitance-matrix artifact exists on disk, in order. -/
def load_spiral_paths (exists_on_disk : String → Bool)
    (readResult : Except Unit (List String)) : List String :=
  match readResult with
  | .error _ => []
  | .ok paths => paths.filter (fun p => exists_on_disk (cap_artifact_path p))

/-- Embeds the row construction of the variants tree in PortsPopup._build_ui
(SpiralsMain.py lines 119 to 121): one row (path, conductor count) per
spiral path, in order. -/
def build_tree_rows (count : String → Nat) (spiral_paths : List String) : List (String × Nat) :=
  spiral_paths.map (fun p => (p, count p))

/-- One port definition: a type tag and a signs vector.  Sign values are
kept abstract in α because only the success or failure of the float
conversion matters to the embedded control flow. -/
structure PortDef (α : Type) where
  ptype : String
  signs : List α
deriving DecidableEq, Repr

/-- Port mapping of one variant, in insertion order, names unique. -/
abbrev PortMap (α : Type) := List (String × PortDef α)

/-- The in-memory port set self.ports: variant path to port mapping, in
insertion order, paths unique. -/
abbrev Ports (α : Type) := List (String × PortMap α)

/-- Insertion or replacement of a named entry in one port mapping, the
Python dict assignment m[name] = pd. -/
def setPort (m : PortMap α) (name : String) (pd : PortDef α) : PortMap α :=
  match m with
  | [] => [(name, pd)]
  | (k, v) :: rest => if k = name then (k, pd) :: rest else (k, v) :: setPort rest name pd

/-- Embeds self.ports.setdefault(path, dict())[name] = pd: the variant
entry is created at the end when absent, then its mapping gets the port. -/
def insertPort (ports : Ports α) (path name : String) (pd : PortDef α) : Ports α :=
  match ports with
  | [] => [(path, setPort [] name pd)]
  | (k, m) :: rest =>
    if k = path then (k, setPort m name pd) :: rest else (k, m) :: insertPort rest path name pd

/-- Replaces every comma with a space, the str.replace call of
_apply_to_paths. -/
def replaceCommas (s : String) : String :=
  String.mk (s.toList.map (fun c => if c = ',' then ' ' else c))

/-- Helper of pySplitWs: accumulates the current token in reverse. -/
def splitWsAux : List Char → List Char → List String
  | [], cur => if cur.isEmpty then [] else [String.mk cur.reverse]
  | c :: rest, cur =>
    if isPySpace c then
      if cur.isEmpty then splitWsAux rest []
      else String.mk cur.reverse :: splitWsAux rest []
    else splitWsAux rest (c :: cur)

/-- Python str.split with no argument: tokens separated by runs of
whitespace, no empty tokens. -/
def pySplitWs (s : String) : List String :=
  splitWsAux s.toList []

/-- Embeds the signs_raw computation of _apply_to_paths (SpiralsMain.py
line 193): commas become spaces, the field is split on whitespace, and
empty tokens are dropped (the comprehension filter, redundant after
split). -/
def signsRawOf (signsField : String) : List String :=
  (pySplitWs (replaceCommas signsField)).filter (fun t => t ≠ "")

/-- Embeds the validation loop of _apply_to_paths (SpiralsMain.py lines 194
to 202): the first path whose nonzero conductor count differs from the
token count, at which the method warns and returns; none when every path
passes. -/
def first_size_mismatch (count : String → Nat) (nsigns : Nat) : List String → Option String
  | [] => none
  | p :: rest =>
    let n := count p
    if n ≠ 0 ∧ nsigns ≠ n then some p else first_size_mismatch count nsigns rest

/-- Left-to-right conversion of every token, the list comprehension
[float(s) for s in signs_raw]: none as soon as one token fails to parse.
The float builtin of Python is modelled by the parameter parseFloat. -/
def parseSigns (parseFloat : String → Option α) : List String → Option (List α)
  | [] => some []
  | t :: rest =>
    match parseFloat t with
    | none => none
    | some v =>
      match parseSigns parseFloat rest with
      | none => none
      | some vs => some (v :: vs)

/-- Embeds the commit loop of _apply_to_paths (SpiralsMain.py lines 203 to
207).  Python evaluates the right-hand side of the assignment, including
the float conversion of every token, before the setdefault and the
insertion, so a conversion failure in an iteration leaves that iteration
without any mutation; the Bool records whether the loop raised. -/
def commit_loop (parseFloat : String → Option α) (name ptype : String)
    (signs_raw : List String) : List String → Ports α → Ports α × Bool
  | [], ports => (ports, false)
  | p :: rest, ports =>
    match parseSigns parseFloat signs_raw with
    | none => (ports, true)
    | some signs => commit_loop parseFloat name ptype signs_raw rest
        (insertPort ports p name ⟨ptype, signs⟩)

/-- Outcome of one call of _apply_to_paths: early return for a missing
name, early return with a single warned path for a size mismatch, an
uncaught ValueError from the float conversion, or a completed apply. -/
inductive ApplyOutcome where
  | missing_name
  | size_mismatch (reported : String)
  | raised
  | applied
deriving DecidableEq, Repr

/-- The paths a call of _apply_to_paths reports to the operator as failing
dimension validation: the single path of the size-mismatch warning. -/
def reported_failures : ApplyOutcome → List String
  | .size_mismatch p => [p]
  | _ => []

/-- Embeds PortsPopup._apply_to_paths (SpiralsMain.py lines 188 to 208):
strip the name and return when empty, tokenize the signs field, validate
every path before any mutation, then run the commit loop.  Returns the
resulting port set and the outcome. -/
def apply_to_paths (parseFloat : String → Option α) (count : String → Nat)
    (ports : Ports α) (paths : List String)
    (rawName ptype signsField : String) : Ports α × ApplyOutcome :=
  let name := pyStrip isPySpace rawName
  if name = "" then (ports, .missing_name)
  else
    let signs_raw := signsRawOf signsField
    match first_size_mismatch count signs_raw.length paths with
    | some p => (ports, .size_mismatch p)
    | none =>
      let r := commit_loop parseFloat name ptype signs_raw paths ports
      (r.1, if r.2 then .raised else .applied)

/-- Embeds the persistence loop of PortsPopup._save_and_run (SpiralsMain.py
lines 232 to 235).  The excluded collaborators PG.ensure_analysis_dirs and
Path.write_text are modelled from the spec as one parameter from variant
path to write result.  There is no exception handler: the first write
failure raises out of the loop.  Returns the variants whose write was
attempted, in order, and whether the loop raised. -/
def save_ports_loop (write : String → Except Unit Unit) :
    List (String × PortMap α) → List String × Bool
  | [] => ([], false)
  | (p, _) :: rest =>
    match write p with
    | .ok _ =>
      let r := save_ports_loop write rest
      (p :: r.1, r.2)
    | .error _ => ([p], true)

/-- Embeds the dispatch loop of PortsPopup._run_plots (SpiralsMain.py lines
242 to 245).  The excluded collaborator PG.process_spiral is modelled from
the spec as a parameter returning the records it appends for a variant, or
an error when it raises.  There is no exception handler around the call.
Returns the accumulated records, the variants on which the collaborator was
invoked, in order, and whether the loop raised. -/
def run_plots (ρ : Type) (process : String → Except Unit (List ρ)) :
    List String → List ρ → List ρ × List String × Bool
  | [], records => (records, [], false)
  | p :: rest, records =>
    match process p with
    | .ok recs =>
      let r := run_plots ρ process rest (records ++ recs)
      (r.1, p :: r.2.1, r.2.2)
    | .error _ => (records, [p], true)

/-- One pipeline stage as the runner sees it: the exit status of the
external process (MainApp._run_pipeline runs each stage through
log_subprocess, whose check=True run raises exactly on a nonzero status). -/
structure Stage where
  exit_status : Int
deriving DecidableEq, Repr

/-- Embeds log_subprocess (SpiralsMain.py lines 48 to 65) at the level the
runner consumes it: true exactly when the stage exits with status 0. -/
def stage_ok (s : Stage) : Bool :=
  s.exit_status = 0

/-- Embeds the stage sequencing of MainApp._run_pipeline (SpiralsMain.py
lines 357 to 370): each stage runs in order through stage_ok, and the
method returns as soon as one fails.  Returns the overall success report
and the stages that were invoked, in order. -/
def run_pipeline : List Stage → Bool × List Stage
  | [] => (true, [])
  | s :: rest =>
    if stage_ok s then
      let r := run_pipeline rest
      (r.1, s :: r.2)
    else (false, [s])

/-- Concrete path environment for counterexamples: every entry counts as
absolute and resolution is the identity. -/
def envId : PathEnv :=
  { is_absolute := fun _ => true, joinp := fun a b => a ++ "/" ++ b, resolve := id }

/-- Concrete sign-token parser standing in for the float builtin in
counterexamples and witnesses: it accepts exactly the tokens +1, 1 and -1. -/
def parseSignTok : String → Option Int :=
  fun t => if t = "+1" ∨ t = "1" then some 1 else if t = "-1" then some (-1) else none

/-- Concrete conductor counts for the C3 counterexample: p1 has 2
conductors, p2 has 3, every other variant is unsolved. -/
def countC3 : String → Nat :=
  fun p => if p = "p1" then 2 else if p = "p2" then 3 else 0

/-- Concrete conductor counts with every variant unsolved. -/
def countZero : String → Nat :=
  fun _ => 0

/-- Concrete initial port set holding one prior definition, to observe
whether a failing batch apply mutates anything. -/
def portsC9 : Ports Int :=
  [("p1", [("Old", { ptype := "series", signs := [1] })])]

/-- Concrete plot collaborator for the C2 counterexample: variant x yields
record 0, variant z yields record 1, variant y raises. -/
def processC2 : String → Except Unit (List Nat) :=
  fun p => if p = "x" then .ok [0] else if p = "z" then .ok [1] else .error ()

/-- Concrete writer for the C5 counterexample: the write for variant v1
fails, every other write succeeds. -/
def writeC5 : String → Except Unit Unit :=
  fun p => if p = "v1" then .error () else .ok ()

/-- Concrete port set of two variants for the C5 counterexample. -/
def portsC5 : Ports Int :=
  [("v1", []), ("v2", [])]

/-- Normal form of the manifest parser: clean every line, drop the blank
results, then join and resolve each survivor. -/
theorem read_address_entries_eq (env : PathEnv) (parent : String) (lines : List String) :
    read_address_entries env parent lines =
      ((lines.map cleanLine).filter (fun s => s ≠ "")).map
        (fun s => env.resolve (if env.is_absolute s then s else env.joinp parent s)) := by
  induction lines with
  | nil => rfl
  | cons l rest ih =>
    by_cases h : cleanLine l = ""
    · simp [read_address_entries, h, ih]
    · simp [read_address_entries, h, ih]

/-- Claim C6 (amended: each strip call removes every leading and trailing
quote character, so repeated quote layers are all removed, not a single
layer): for every manifest, parse returns exactly one entry per line that
is non-blank after cleaning, in file order; each surviving line is stripped
of surrounding whitespace and of all surrounding double quotes and then all
surrounding single quotes, relative survivors are joined to the parent
directory of the manifest, and every entry is resolved. -/
theorem C6_manifest_parse (env : PathEnv) (parent : String) (lines : List String) :
    (read_address_entries env parent lines).length
        = ((lines.map cleanLine).filter (fun s => s ≠ "")).length ∧
    read_address_entries env parent lines =
      ((lines.map cleanLine).filter (fun s => s ≠ "")).map
        (fun s => env.resolve (if env.is_absolute s then s else env.joinp parent s)) := by
  refine ⟨?_, read_address_entries_eq env parent lines⟩
  rw [read_address_entries_eq env parent lines, List.length_map]

/-- Claim C6, counterexample to the stated single-layer stripping: on the
line consisting of x surrounded by two layers of double quotes, the source
strips both layers while the specified parser strips one. -/
theorem C6_counterexample :
    read_address_entries envId "/m" ["\"\"x\"\""] = ["x"] ∧
    read_address_entries_spec envId "/m" ["\"\"x\"\""] = ["\"x\""] ∧
    read_address_entries envId "/m" ["\"\"x\"\""]
      ≠ read_address_entries_spec envId "/m" ["\"\"x\"\""] := by
  decide

/-- Claim C7: the conductor count is 0 whenever the capacitance-matrix
load fails for any reason, equals the square-matrix row count when the
load succeeds, and re-invoking without any filesystem mutation returns the
same value. -/
theorem C7_count_conductors (load : String → Except Unit CapMatrix) (path : String) :
    (∀ e, load (cap_artifact_path path) = .error e → count_conductors load path = 0) ∧
    (∀ m, load (cap_artifact_path path) = .ok m → count_conductors load path = m.rows) ∧
    count_conductors load path = count_conductors load path := by
  refine ⟨?_, ?_, rfl⟩
  · intro e he
    simp [count_conductors, he]
  · intro m hm
    simp [count_conductors, hm]

/-- Claim C8: the missing list of the address verification is empty exactly
when every parsed entry exists on disk; a path is in the missing list
exactly when it is a parsed entry that does not exist; and the missing list
is a sublist of the entries, so it consists of exactly the non-existing
entries in order. -/
theorem C8_validate_missing (ex : String → Bool) (entries : List String) :
    (verify_address_missing ex entries = [] ↔ ∀ p ∈ entries, ex p = true) ∧
    (∀ p, p ∈ verify_address_missing ex entries ↔ p ∈ entries ∧ ex p = false) ∧
    (verify_address_missing ex entries).Sublist entries := by
  unfold verify_address_missing
  refine ⟨?_, ?_, List.filter_sublist entries⟩
  · rw [List.filter_eq_nil_iff]
    constructor
    · intro h p hp
      have := h p hp
      simpa using this
    · intro h p hp
      simp [h p hp]
  · intro p
    rw [List.mem_filter]
    simp

/-- Claim C10: every row of the port-configuration view comes from a
variant whose capacitance-matrix artifact exists on disk, and carries that
variant and its conductor count; variants whose artifact is absent are
filtered out of the view before the rows are built. -/
theorem C10_view_rows_have_artifact (ex : String → Bool)
    (res : Except Unit (List String)) (count : String → Nat) (pr : String × Nat)
    (hmem : pr ∈ build_tree_rows count (load_spiral_paths ex res)) :
    ex (cap_artifact_path pr.1) = true ∧ pr.2 = count pr.1 := by
  obtain ⟨p, hp, hpr⟩ := List.mem_map.mp hmem
  subst hpr
  cases res with
  | error e => simp [load_spiral_paths] at hp
  | ok paths =>
    have h2 := List.mem_filter.mp hp
    exact ⟨h2.2, rfl⟩

/-- Claim C10, witness: a concrete view over two manifest entries of which
only the first has an existing artifact. -/
theorem C10_witness :
    (fun s => s == "v1/FastSolver/CapacitanceMatrix.txt") (cap_artifact_path ("v1", 3).1) = true ∧
    ("v1", 3).2 = (fun _ => 3) ("v1", 3).1 :=
  C10_view_rows_have_artifact (fun s => s == "v1/FastSolver/CapacitanceMatrix.txt")
    (.ok ["v1", "v2"]) (fun _ => 3) ("v1", 3) (by decide)

/-- Claim C4: the pipeline reports success exactly when every stage exits
with status 0, in which case every stage was invoked in order; on failure
the invoked stages are a leading segment of the sequence ending at the
first failing stage, so no stage after the first failure is ever invoked
and the run reports false. -/
theorem C4_pipeline_fail_fast (stages : List Stage) :
    ((run_pipeline stages).1 = true ↔ ∀ s ∈ stages, stage_ok s = true) ∧
    ((run_pipeline stages).1 = true → (run_pipeline stages).2 = stages) ∧
    ((run_pipeline stages).1 = false →
      ∃ pre bad post, stages = pre ++ bad :: post ∧
        (run_pipeline stages).2 = pre ++ [bad] ∧
        (∀ s ∈ pre, stage_ok s = true) ∧ stage_ok bad = false) := by
  induction stages with
  | nil => simp [run_pipeline]
  | cons s rest ih =>
    obtain ⟨ih1, ih2, ih3⟩ := ih
    by_cases h : stage_ok s = true
    · refine ⟨?_, ?_, ?_⟩
      · simp [run_pipeline, h, ih1]
      · intro hh
        have hr : (run_pipeline rest).1 = true := by
          simpa [run_pipeline, h] using hh
        simp [run_pipeline, h, ih2 hr]
      · intro hh
        have hr : (run_pipeline rest).1 = false := by
          simpa [run_pipeline, h] using hh
        obtain ⟨pre, bad, post, e1, e2, e3, e4⟩ := ih3 hr
        refine ⟨s :: pre, bad, post, by simp [e1], ?_, ?_, e4⟩
        · simp [run_pipeline, h, e2]
        · intro x hx
          rcases List.mem_cons.mp hx with hx | hx
          · rw [hx]; exact h
          · exact e3 x hx
    · refine ⟨?_, ?_, ?_⟩
      · constructor
        · intro hh
          simp [run_pipeline, h] at hh
        · intro hh
          exact absurd (hh s (List.mem_cons_self s rest)) h
      · intro hh
        simp [run_pipeline, h] at hh
      · intro _
        exact ⟨[], s, rest, rfl, by simp [run_pipeline, h], by simp,
          Bool.not_eq_true _ ▸ Bool.of_not_eq_true h⟩

/-- The validation loop returns none exactly when every path passes the
dimension check: unsolved (count 0) or token count equal to the conductor
count. -/
theorem first_size_mismatch_eq_none (count : String → Nat) (nsigns : Nat)
    (paths : List String) :
    first_size_mismatch count nsigns paths = none ↔
      ∀ p ∈ paths, count p = 0 ∨ nsigns = count p := by
  induction paths with
  | nil => simp [first_size_mismatch]
  | cons p rest ih =>
    by_cases h : count p ≠ 0 ∧ nsigns ≠ count p
    · simp only [first_size_mismatch, if_pos h]
      constructor
      · intro hc
        exact absurd hc (Option.some_ne_none p)
      · intro hall
        rcases hall p (List.mem_cons_self p rest) with h0 | h0
        · exact absurd h0 h.1
        · exact absurd h0 h.2
    · simp only [first_size_mismatch, if_neg h]
      rw [ih]
      push_neg at h
      constructor
      · intro hall q hq
        rcases List.mem_cons.mp hq with hq | hq
        · subst hq
          by_cases h0 : count q = 0
          · exact Or.inl h0
          · exact Or.inr (h h0)
        · exact hall q hq
      · intro hall q hq
        exact hall q (List.mem_cons_of_mem p hq)

/-- When the validation loop reports a path, that path is the first failing
one: every path before it passes the dimension check, and the reported path
itself fails it. -/
theorem first_size_mismatch_eq_some (count : String → Nat) (nsigns : Nat)
    (paths : List String) (r : String)
    (hsome : first_size_mismatch count nsigns paths = some r) :
    ∃ pre post, paths = pre ++ r :: post ∧
      (∀ p ∈ pre, count p = 0 ∨ nsigns = count p) ∧
      count r ≠ 0 ∧ nsigns ≠ count r := by
  induction paths with
  | nil => simp [first_size_mismatch] at hsome
  | cons p rest ih =>
    by_cases h : count p ≠ 0 ∧ nsigns ≠ count p
    · simp only [first_size_mismatch, if_pos h, Option.some.injEq] at hsome
      subst hsome
      exact ⟨[], rest, rfl, by simp, h.1, h.2⟩
    · simp only [first_size_mismatch, if_neg h] at hsome
      obtain ⟨pre, post, e1, e2, e3, e4⟩ := ih hsome
      push_neg at h
      refine ⟨p :: pre, post, by simp [e1], ?_, e3, e4⟩
      intro q hq
      rcases List.mem_cons.mp hq with hq | hq
      · subst hq
        by_cases h0 : count q = 0
        · exact Or.inl h0
        · exact Or.inr (h h0)
      · exact e2 q hq

/-- Claim C1: a batch apply is all-or-nothing with respect to dimension
validation: when any target with nonzero conductor count disagrees with
the token count, the port set is returned unchanged, and conversely the
port set can only change when every target passes the dimension check. -/
theorem C1_batch_validation_before_mutation (α : Type)
    (parseFloat : String → Option α) (count : String → Nat) (ports : Ports α)
    (paths : List String) (rawName ptype signsField : String) :
    ((∃ p ∈ paths, count p ≠ 0 ∧ (signsRawOf signsField).length ≠ count p) →
      (apply_to_paths parseFloat count ports paths rawName ptype signsField).1 = ports) ∧
    ((apply_to_paths parseFloat count ports paths rawName ptype signsField).1 ≠ ports →
      ∀ p ∈ paths, count p = 0 ∨ (signsRawOf signsField).length = count p) := by
  have hmain : (∃ p ∈ paths, count p ≠ 0 ∧ (signsRawOf signsField).length ≠ count p) →
      (apply_to_paths parseFloat count ports paths rawName ptype signsField).1 = ports := by
    intro ⟨p, hp, hfail⟩
    unfold apply_to_paths
    by_cases hname : pyStrip isPySpace rawName = ""
    · simp [hname]
    · simp only [if_neg hname]
      cases hfm : first_size_mismatch count (signsRawOf signsField).length paths with
      | some q => simp
      | none =>
        rcases (first_size_mismatch_eq_none count (signsRawOf signsField).length paths).mp
            hfm p hp with h0 | h0
        · exact absurd h0 hfail.1
        · exact absurd h0 hfail.2
  refine ⟨hmain, ?_⟩
  intro hne p hp
  by_contra hc
  push_neg at hc
  exact hne (hmain ⟨p, hp, hc⟩)

/-- Claim C3, counterexample: with token count 1, variant p1 (2 conductors)
and variant p2 (3 conductors) both fail dimension validation, yet only p1
is reported; p2 is failing but absent from the report. -/
theorem C3_counterexample :
    reported_failures
        (apply_to_paths parseSignTok countC3 ([] : Ports Int)
          ["p1", "p2"] "Port1" "series" "+1").2 = ["p1"] ∧
    countC3 "p2" ≠ 0 ∧ (signsRawOf "+1").length ≠ countC3 "p2" ∧
    "p2" ∉ reported_failures
        (apply_to_paths parseSignTok countC3 ([] : Ports Int)
          ["p1", "p2"] "Port1" "series" "+1").2 := by
  decide

/-- Claim C3 (amended: only the FIRST failing variant in batch order is
reported, not the full failing set): whenever a batch apply ends in a
size-mismatch warning, the reported variant is the first path failing the
dimension check, every earlier path passes it, and the report consists of
that single variant. -/
theorem C3_first_failure_reported (α : Type)
    (parseFloat : String → Option α) (count : String → Nat) (ports : Ports α)
    (paths : List String) (rawName ptype signsField : String) (r : String)
    (hout : (apply_to_paths parseFloat count ports paths rawName ptype signsField).2
      = .size_mismatch r) :
    ∃ pre post, paths = pre ++ r :: post ∧
      (∀ p ∈ pre, count p = 0 ∨ (signsRawOf signsField).length = count p) ∧
      count r ≠ 0 ∧ (signsRawOf signsField).length ≠ count r ∧
      reported_failures
        (apply_to_paths parseFloat count ports paths rawName ptype signsField).2 = [r] := by
  rw [hout]
  unfold apply_to_paths at hout
  by_cases hname : pyStrip isPySpace rawName = ""
  · simp [hname] at hout
  · simp only [if_neg hname] at hout
    cases hfm : first_size_mismatch count (signsRawOf signsField).length paths with
    | none =>
      rw [hfm] at hout
      have hout2 : (if (commit_loop parseFloat (pyStrip isPySpace rawName) ptype
            (signsRawOf signsField) paths ports).2 = true then ApplyOutcome.raised
          else ApplyOutcome.applied) = ApplyOutcome.size_mismatch r := hout
      cases hb : (commit_loop parseFloat (pyStrip isPySpace rawName) ptype
          (signsRawOf signsField) paths ports).2 with
      | false =>
        rw [hb] at hout2
        simp at hout2
      | true =>
        rw [hb] at hout2
        simp at hout2
    | some q =>
      rw [hfm] at hout
      have hout2 : ApplyOutcome.size_mismatch q = ApplyOutcome.size_mismatch r := hout
      have hq : q = r := by
        injection hout2
      subst hq
      obtain ⟨pre, post, e1, e2, e3, e4⟩ :=
        first_size_mismatch_eq_some count (signsRawOf signsField).length paths q hfm
      exact ⟨pre, post, e1, e2, e3, e4, rfl⟩

/-- Claim C3, witness: the amended statement at the concrete counterexample
batch, where p1 is reported first. -/
theorem C3_witness :
    ∃ pre post, ["p1", "p2"] = pre ++ "p1" :: post ∧
      (∀ p ∈ pre, countC3 p = 0 ∨ (signsRawOf "+1").length = countC3 p) ∧
      countC3 "p1" ≠ 0 ∧ (signsRawOf "+1").length ≠ countC3 "p1" ∧
      reported_failures
        (apply_to_paths parseSignTok countC3 ([] : Ports Int)
          ["p1", "p2"] "Port1" "series" "+1").2 = ["p1"] :=
  C3_first_failure_reported Int parseSignTok countC3 ([] : Ports Int)
    ["p1", "p2"] "Port1" "series" "+1" "p1" (by decide)

/-- Claim C9, counterexample: with every variant unsolved (so the token
count passes the dimension check) and the single token abc failing the
float conversion, the batch apply over two variants raises with the port
set completely unchanged, not partially applied. -/
theorem C9_counterexample :
    first_size_mismatch countZero (signsRawOf "abc").length ["p1", "p2"] = none ∧
    parseSignTok "abc" = none ∧
    apply_to_paths parseSignTok countZero portsC9 ["p1", "p2"] "Port1" "series" "abc"
      = (portsC9, .raised) := by
  decide

/-- Claim C9 (amended: the float conversion does happen per-variant during
the commit loop, after the pre-commit dimension validation, but the
assignment evaluates its right-hand side, including the conversion of the
whole token list, before any insertion, and the conversion fails the same
way on every iteration, so the raise occurs on the FIRST commit iteration
and the port set is left unchanged, never partially applied): with a
nonempty name, a token list passing every dimension check, some token
failing the float conversion, and a nonempty batch, the apply raises and
returns the port set unchanged. -/
theorem C9_raise_leaves_ports_unchanged (α : Type)
    (parseFloat : String → Option α) (count : String → Nat) (ports : Ports α)
    (paths : List String) (rawName ptype signsField : String)
    (hname : pyStrip isPySpace rawName ≠ "")
    (hpass : first_size_mismatch count (signsRawOf signsField).length paths = none)
    (hparse : parseSigns parseFloat (signsRawOf signsField) = none)
    (hne : paths ≠ []) :
    apply_to_paths parseFloat count ports paths rawName ptype signsField
      = (ports, .raised) := by
  unfold apply_to_paths
  simp only [if_neg hname]
  rw [hpass]
  cases paths with
  | nil => exact absurd rfl hne
  | cons p rest =>
    have hcl : commit_loop parseFloat (pyStrip isPySpace rawName) ptype
        (signsRawOf signsField) (p :: rest) ports = (ports, true) := by
      unfold commit_loop
      rw [hparse]
    change ((commit_loop parseFloat (pyStrip isPySpace rawName) ptype
        (signsRawOf signsField) (p :: rest) ports).1,
      if (commit_loop parseFloat (pyStrip isPySpace rawName) ptype
          (signsRawOf signsField) (p :: rest) ports).2 = true
      then ApplyOutcome.raised else ApplyOutcome.applied) = (ports, ApplyOutcome.raised)
    rw [hcl]
    rfl

/-- Claim C9, witness: the amended statement at the concrete batch of the
counterexample. -/
theorem C9_witness :
    apply_to_paths parseSignTok countZero portsC9 ["p1", "p2"] "Port1" "series" "abc"
      = (portsC9, .raised) :=
  C9_raise_leaves_ports_unchanged Int parseSignTok countZero portsC9 ["p1", "p2"]
    "Port1" "series" "abc" (by decide) (by decide) (by decide) (by decide)

/-- Claim C2, counterexample: over the variants x (one record), y (the
collaborator raises) and z (one record), the dispatch loop stops at y: the
exception propagates, z is never dispatched, and the aggregate lacks the
record of the non-failing variant z. -/
theorem C2_counterexample :
    run_plots Nat processC2 ["x", "y", "z"] [] = ([0], ["x", "y"], true) ∧
    "z" ∉ (run_plots Nat processC2 ["x", "y", "z"] []).2.1 ∧
    (run_plots Nat processC2 ["x", "y", "z"] []).1 ≠ [0, 1] := by
  decide

/-- Claim C2 (amended: a failure raised by the plot collaborator for one
variant is NOT caught: it propagates to the caller, the remaining variants
are not dispatched, and the aggregate keeps only the records accumulated
before the failing variant): when every variant before the failing one
succeeds, the dispatched list ends at the failing variant with the raise
flag set, and the accumulated records are those of the preceding
variants. -/
theorem C2_failure_propagates (ρ : Type) (process : String → Except Unit (List ρ))
    (pre : List String) (f : String) (post : List String) (acc : List ρ)
    (hok : ∀ p ∈ pre, process p ≠ .error ())
    (hf : process f = .error ()) :
    (run_plots ρ process (pre ++ f :: post) acc).2 = (pre ++ [f], true) ∧
    (run_plots ρ process (pre ++ f :: post) acc).1 = (run_plots ρ process pre acc).1 := by
  induction pre generalizing acc with
  | nil =>
    simp only [List.nil_append]
    unfold run_plots
    rw [hf]
    exact ⟨rfl, rfl⟩
  | cons p rest ih =>
    have hp := hok p (List.mem_cons_self p rest)
    cases hpp : process p with
    | error e =>
      cases e
      exact absurd hpp hp
    | ok recs =>
      have hok2 : ∀ q ∈ rest, process q ≠ .error () :=
        fun q hq => hok q (List.mem_cons_of_mem p hq)
      obtain ⟨ih1, ih2⟩ := ih (acc ++ recs) hok2
      have hL : run_plots ρ process ((p :: rest) ++ f :: post) acc
          = ((run_plots ρ process (rest ++ f :: post) (acc ++ recs)).1,
             p :: (run_plots ρ process (rest ++ f :: post) (acc ++ recs)).2.1,
             (run_plots ρ process (rest ++ f :: post) (acc ++ recs)).2.2) := by
        simp only [List.cons_append, run_plots, hpp]
        rfl
      have hR : run_plots ρ process (p :: rest) acc
          = ((run_plots ρ process rest (acc ++ recs)).1,
             p :: (run_plots ρ process rest (acc ++ recs)).2.1,
             (run_plots ρ process rest (acc ++ recs)).2.2) := by
        simp only [run_plots, hpp]
      have e1 : (run_plots ρ process (rest ++ f :: post) (acc ++ recs)).2.1 = rest ++ [f] :=
        congrArg Prod.fst ih1
      have e2 : (run_plots ρ process (rest ++ f :: post) (acc ++ recs)).2.2 = true :=
        congrArg Prod.snd ih1
      rw [hL, hR]
      refine ⟨?_, ih2⟩
      show (p :: (run_plots ρ process (rest ++ f :: post) (acc ++ recs)).2.1,
        (run_plots ρ process (rest ++ f :: post) (acc ++ recs)).2.2)
          = ((p :: rest) ++ [f], true)
      rw [e1, e2]
      simp

/-- Claim C2, witness: the amended statement at the concrete dispatch of
the counterexample, with x before the failing y and z after it. -/
theorem C2_witness :
    (run_plots Nat processC2 (["x"] ++ "y" :: ["z"]) []).2 = (["x"] ++ ["y"], true) ∧
    (run_plots Nat processC2 (["x"] ++ "y" :: ["z"]) []).1 = (run_plots Nat processC2 ["x"] []).1 :=
  C2_failure_propagates Nat processC2 ["x"] "y" ["z"] [] (by decide) (by decide)

/-- Claim C5, counterexample: the write for variant v1 fails, and the
persistence loop stops there: variant v2 is never attempted, the exception
propagates, and no collection of failures is reported together. -/
theorem C5_counterexample :
    save_ports_loop writeC5 portsC5 = (["v1"], true) ∧
    "v2" ∉ (save_ports_loop writeC5 portsC5).1 := by
  decide

/-- Claim C5 (amended: a write failure during the batch persist is NOT
isolated: the exception propagates immediately, the remaining variants are
not attempted, and failures are not collected): when every variant before
the failing one writes successfully, the attempted variants are exactly
those up to and including the failing one, and the loop raises. -/
theorem C5_persist_stops_at_first_failure (α : Type)
    (write : String → Except Unit Unit) (pre : List (String × PortMap α))
    (bad : String × PortMap α) (post : List (String × PortMap α))
    (hok : ∀ e ∈ pre, write e.1 ≠ .error ())
    (hbad : write bad.1 = .error ()) :
    save_ports_loop write (pre ++ bad :: post)
      = (pre.map (fun e => e.1) ++ [bad.1], true) := by
  induction pre with
  | nil =>
    rcases bad with ⟨p, m⟩
    simp only [List.nil_append]
    unfold save_ports_loop
    rw [hbad]
    rfl
  | cons e rest ih =>
    have he := hok e (List.mem_cons_self e rest)
    cases hw : write e.1 with
    | error u =>
      cases u
      exact absurd hw he
    | ok u =>
      have hok2 : ∀ q ∈ rest, write q.1 ≠ .error () :=
        fun q hq => hok q (List.mem_cons_of_mem e hq)
      have ihr := ih hok2
      rcases e with ⟨p, m⟩
      have hstep : save_ports_loop write ((p, m) :: (rest ++ bad :: post))
          = (p :: (save_ports_loop write (rest ++ bad :: post)).1,
             (save_ports_loop write (rest ++ bad :: post)).2) := by
        simp only [save_ports_loop, hw]
      rw [List.cons_append, hstep, ihr]
      simp

/-- Claim C5, witness: the amended statement at a concrete batch where the
write for v2 succeeds, the write for v1 fails, and v3 comes after. -/
theorem C5_witness :
    save_ports_loop writeC5 ([("v2", [])] ++ ("v1", ([] : PortMap Int)) :: [("v3", [])])
      = ([("v2", ([] : PortMap Int))].map (fun e => e.1) ++ [("v1", ([] : PortMap Int)).1], true) :=
  C5_persist_stops_at_first_failure Int writeC5 [("v2", [])] ("v1", []) [("v3", [])]
    (by decide) (by decide)

end Spirals
